import Mathlib

/-!
Verification of the CSS selector builder from src/src/05-objects-tasks.js.

The JavaScript code builds selector fragments through six constructors
(MyElement, MyId, MyClass, MyAttr, MyPseudoClass, MyPseudoElement), a
CombineSelector constructor, and a facade object cssSelectorBuilder whose
methods re-parent each new object onto the facade prototype and then run
inOrderCheck on it.

Modelling notes, traceable to the source line by line:
- Each constructor does the assignment this.arr = arr || [], where arr is the
  RECEIVER's own array.  The new object therefore shares the very same array
  object with its predecessor, and Array.prototype.push mutates it in place.
  To keep that aliasing observable we model arrays as references (natural
  number indices) into an explicit store of type List (List Kind); the field
  arr of a fragment is Option Nat, none when the receiver has no arr property
  (the facade itself and CombineSelector results).
- The field str is assigned exactly once, at construction, and no code path
  ever writes the str of an existing object, so str can live immutably inside
  the fragment record: Option String, none for the facade (which has no str
  property), matching stringify() returning this.str || two quotes.
- Machine integers do not occur; the only numbers are the six order indices.
- Exceptions are modelled with Except: each facade append method returns the
  resulting store paired with Except SelError Fragment.  The store is returned
  in every case because a throw raised by inOrderCheck happens AFTER the push
  has already mutated the shared array.
-/

namespace CssBuilder

/-- The six component kinds, exactly the strings pushed onto arr by the six
constructors in 05-objects-tasks.js (element, id, class, attribute,
pseudo-class, pseudo-element).  The names class and attribute are reserved
words in Lean, hence the spellings class_ and attr. -/
inductive Kind where
  | element
  | id
  | class_
  | attr
  | pseudoClass
  | pseudoElement
deriving DecidableEq

/-- The literal string each constructor pushes onto arr. -/
def kindName : Kind → String
  | Kind.element => "element"
  | Kind.id => "id"
  | Kind.class_ => "class"
  | Kind.attr => "attribute"
  | Kind.pseudoClass => "pseudo-class"
  | Kind.pseudoElement => "pseudo-element"

/-- The order table inside inOrderCheck (lines 225-232). -/
def orderIdx : Kind → Nat
  | Kind.element => 0
  | Kind.id => 1
  | Kind.class_ => 2
  | Kind.attr => 3
  | Kind.pseudoClass => 4
  | Kind.pseudoElement => 5

/-- The kinds whose constructors contain the duplicate guard
(MyElement, MyId, MyPseudoElement). -/
def isSingleton : Kind → Bool
  | Kind.element => true
  | Kind.id => true
  | Kind.pseudoElement => true
  | _ => false

/-- The punctuation each constructor splices around the raw value when it
assigns this.str (template literals at lines 124, 135, 142, 149, 156, 167). -/
def punctuate : Kind → String → String
  | Kind.element, v => v
  | Kind.id, v => "#" ++ v
  | Kind.class_, v => "." ++ v
  | Kind.attr, v => "[" ++ v ++ "]"
  | Kind.pseudoClass, v => ":" ++ v
  | Kind.pseudoElement, v => "::" ++ v

/-- The two throw sites: the duplicate guard in MyElement, MyId and
MyPseudoElement, and the order guard in inOrderCheck. -/
inductive SelError where
  | duplicateSingleton
  | outOfOrder
deriving DecidableEq

/-- The exact Error message texts of the two throw statements (lines 120, 130,
162 and line 237), including the typo "more then" of the source. -/
def errorMessage : SelError → String
  | SelError.duplicateSingleton =>
      "Element, id and pseudo-element should not occur more then one time inside the selector"
  | SelError.outOfOrder =>
      "Selector parts should be arranged in the following order: element, id, class, attribute, pseudo-class, pseudo-element"

/-- A store of JavaScript array objects: index = identity of the array. -/
abbrev Store := List (List Kind)

/-- One selector object.  str is the own str property (none when absent, as on
the facade), arr is a reference to the shared array (none when absent, as on
the facade and on CombineSelector results). -/
structure Fragment where
  str : Option String
  arr : Option Nat
deriving DecidableEq

/-- The facade cssSelectorBuilder viewed as the receiver of the first call in a
chain: it has neither an own str nor an own arr property. -/
def builderFragment : Fragment := { str := none, arr := none }

/-- stringify() { return this.str || two quotes; } (lines 244-246).
The empty string is the only falsy JavaScript string, and it is mapped to the
empty string as well, so getD is an exact translation. -/
def stringify (f : Fragment) : String := f.str.getD ""

/-- Read an array object out of the store. -/
def getArr (s : Store) (r : Nat) : List Kind := s.getD r []

/-- Overwrite an array object in the store (the effect of push). -/
def setArr (s : Store) (r : Nat) (a : List Kind) : Store := s.set r a

/-- The usedKinds of the specification: the contents of the arr array of the
fragment, empty when the fragment has no arr property. -/
def usedKinds (s : Store) (f : Fragment) : List Kind :=
  match f.arr with
  | none => []
  | some r => getArr s r

/-- Well-formedness of a fragment against a store: its arr reference, when
present, denotes an array that exists.  Every object the code ever builds
satisfies this. -/
def WFb (s : Store) (f : Fragment) : Bool :=
  match f.arr with
  | none => true
  | some r => decide (r < s.length)

/-- Helper of dedupFirst: drop every element already seen, keeping first
occurrences in order. -/
def dedupAux : List Kind → List Kind → List Kind
  | _, [] => []
  | seen, k :: rest =>
    if k ∈ seen then dedupAux seen rest else k :: dedupAux (k :: seen) rest

/-- Array.from(new Set(obj.arr)) at line 233: deduplication preserving the
first occurrence order. -/
def dedupFirst (l : List Kind) : List Kind := dedupAux [] l

/-- The forEach loop of inOrderCheck (lines 234-240): prevOrder starts at 0 and
the loop throws at the first element whose order index is below prevOrder. -/
def chainOk : Nat → List Kind → Bool
  | _, [] => true
  | prev, k :: rest => if orderIdx k < prev then false else chainOk (orderIdx k) rest

/-- inOrderCheck (lines 223-242) viewed as a predicate on the array contents:
true when no throw happens.  The guard if (obj.arr) is always taken for append
results because they always carry an array (an empty JavaScript array is
truthy). -/
def inOrderCheck (a : List Kind) : Bool := chainOk 0 (dedupFirst a)

/-- One constructor call plus the facade postlude, once the receiver array
reference r is fixed.  Order of effects as in the source: the duplicate guard
(for singleton kinds) fires BEFORE the push and before the str assignment and
leaves the store untouched; otherwise the kind is pushed (mutating the shared
array in the store) and then inOrderCheck runs on the mutated array, either
returning the new object or throwing with the push already done. -/
def appendAt (k : Kind) (v : String) (s : Store) (self : Fragment) (r : Nat) :
    Store × Except SelError Fragment :=
  if isSingleton k = true ∧ k ∈ getArr s r then
    (s, Except.error SelError.duplicateSingleton)
  else if inOrderCheck (getArr s r ++ [k]) = true then
    (setArr s r (getArr s r ++ [k]),
      Except.ok { str := some (stringify self ++ punctuate k v), arr := some r })
  else
    (setArr s r (getArr s r ++ [k]), Except.error SelError.outOfOrder)

/-- A facade append entry point (element, id, class, attr, pseudoClass,
pseudoElement are this function at the six values of k).  The constructor line
this.arr = arr || [] either adopts the receiver array or allocates a fresh
empty array at the end of the store. -/
def append (k : Kind) (v : String) (s : Store) (self : Fragment) :
    Store × Except SelError Fragment :=
  match self.arr with
  | some r => appendAt k v s self r
  | none => appendAt k v (s ++ [[]]) self s.length

/-- combine (lines 217-221) via CombineSelector (lines 170-172): pure string
concatenation of the two stringify results around the combinator; the result
object has a str but no arr property, and nothing is validated. -/
def combine (s : Store) (f1 : Fragment) (comb : String) (f2 : Fragment) :
    Store × Fragment :=
  (s, { str := some (stringify f1 ++ " " ++ comb ++ " " ++ stringify f2), arr := none })

/-- Run a chain of append calls left to right, stopping at the first throw. -/
def runChain : Store → Fragment → List (Kind × String) → Store × Except SelError Fragment
  | s, f, [] => (s, Except.ok f)
  | s, f, (k, v) :: rest =>
    match append k v s f with
    | (s', Except.ok g) => runChain s' g rest
    | (s', Except.error e) => (s', Except.error e)

/-- Invariant A of the specification: element, id and pseudo-element occur at
most once in the usedKinds sequence. -/
def InvA (l : List Kind) : Prop :=
  l.count Kind.element ≤ 1 ∧ l.count Kind.id ≤ 1 ∧ l.count Kind.pseudoElement ≤ 1

/-- Invariant B of the specification: the sequence of canonical order indices
of the kinds, deduplicated preserving first occurrences, is non-decreasing. -/
def InvB (l : List Kind) : Prop :=
  List.Chain' (· ≤ ·) ((dedupFirst l).map orderIdx)

instance invADecidable (l : List Kind) : Decidable (InvA l) :=
  inferInstanceAs (Decidable (_ ∧ _ ∧ _))

instance chainLeDecidable : ∀ (l : List Nat), Decidable (List.Chain' (· ≤ ·) l)
  | [] => Decidable.isTrue List.chain'_nil
  | [a] => Decidable.isTrue (List.chain'_singleton a)
  | a :: b :: t =>
    match chainLeDecidable (b :: t) with
    | Decidable.isTrue h =>
      if hab : a ≤ b then Decidable.isTrue (List.chain'_cons.mpr ⟨hab, h⟩)
      else Decidable.isFalse (fun hc => hab (List.chain'_cons.mp hc).1)
    | Decidable.isFalse h => Decidable.isFalse (fun hc => h (List.chain'_cons.mp hc).2)

instance invBDecidable (l : List Kind) : Decidable (InvB l) :=
  inferInstanceAs (Decidable (List.Chain' _ _))

instance exceptDecEq {ε α : Type} [DecidableEq ε] [DecidableEq α] :
    DecidableEq (Except ε α) := fun x y =>
  match x, y with
  | Except.ok a, Except.ok b =>
    if h : a = b then Decidable.isTrue (congrArg Except.ok h)
    else Decidable.isFalse (fun hc => h (Except.ok.inj hc))
  | Except.ok _, Except.error _ => Decidable.isFalse (fun hc => Except.noConfusion hc)
  | Except.error _, Except.ok _ => Decidable.isFalse (fun hc => Except.noConfusion hc)
  | Except.error a, Except.error b =>
    if h : a = b then Decidable.isTrue (congrArg Except.error h)
    else Decidable.isFalse (fun hc => h (Except.error.inj hc))

/-! Store lemmas. -/

lemma getD_set_self : ∀ (s : Store) (r : Nat) (x : List Kind), r < s.length →
    (s.set r x).getD r [] = x
  | [], r, _x, hr => absurd hr (Nat.not_lt_zero r)
  | _ :: _, 0, _, _ => rfl
  | _ :: t, r + 1, x, hr =>
    getD_set_self t r x (Nat.lt_of_succ_lt_succ hr)

lemma getD_append_self : ∀ (s : Store) (x : List Kind),
    (s ++ [x]).getD s.length [] = x
  | [], _ => rfl
  | _ :: t, x => getD_append_self t x

/-! Deduplication lemmas. -/

lemma mem_dedupAux (x : Kind) :
    ∀ (l seen : List Kind), x ∈ dedupAux seen l ↔ (x ∈ l ∧ x ∉ seen)
  | [], seen => by simp [dedupAux]
  | k :: t, seen => by
    by_cases hk : k ∈ seen
    · rw [dedupAux, if_pos hk, mem_dedupAux x t seen]
      constructor
      · rintro ⟨hxt, hxs⟩; exact ⟨List.mem_cons_of_mem _ hxt, hxs⟩
      · rintro ⟨hxkt, hxs⟩
        rcases List.mem_cons.mp hxkt with h | h
        · exact absurd (h ▸ hk) hxs
        · exact ⟨h, hxs⟩
    · rw [dedupAux, if_neg hk]
      simp only [List.mem_cons, mem_dedupAux x t (k :: seen)]
      by_cases hxk : x = k
      · subst hxk
        tauto
      · tauto

lemma mem_dedupFirst (x : Kind) (l : List Kind) : x ∈ dedupFirst l ↔ x ∈ l := by
  rw [dedupFirst, mem_dedupAux]
  simp

lemma dedupAux_append (k : Kind) :
    ∀ (l seen : List Kind),
      dedupAux seen (l ++ [k]) =
        dedupAux seen l ++ (if k ∈ seen ∨ k ∈ l then [] else [k])
  | [], seen => by
    by_cases hk : k ∈ seen <;> simp [dedupAux, hk]
  | c :: t, seen => by
    by_cases hc : c ∈ seen
    · rw [List.cons_append, dedupAux, if_pos hc, dedupAux, if_pos hc,
        dedupAux_append k t seen]
      congr 1
      have hiff : (k ∈ seen ∨ k ∈ t) ↔ (k ∈ seen ∨ k ∈ c :: t) := by
        simp only [List.mem_cons]
        constructor
        · rintro (h | h)
          exacts [Or.inl h, Or.inr (Or.inr h)]
        · rintro (h | rfl | h)
          exacts [Or.inl h, Or.inl hc, Or.inr h]
      exact if_congr hiff rfl rfl
    · rw [List.cons_append, dedupAux, if_neg hc, dedupAux, if_neg hc,
        dedupAux_append k t (c :: seen)]
      rw [List.cons_append]
      congr 1
      have hiff : (k ∈ c :: seen ∨ k ∈ t) ↔ (k ∈ seen ∨ k ∈ c :: t) := by
        simp only [List.mem_cons]
        tauto
      exact congrArg (fun z => dedupAux (c :: seen) t ++ z) (if_congr hiff rfl rfl)

lemma dedupFirst_append (l : List Kind) (k : Kind) :
    dedupFirst (l ++ [k]) =
      if k ∈ l then dedupFirst l else dedupFirst l ++ [k] := by
  rw [dedupFirst, dedupFirst, dedupAux_append]
  by_cases hk : k ∈ l <;> simp [hk]

/-! Order check lemmas. -/

lemma chainOk_iff_chain' : ∀ (l : List Kind) (p : Nat),
    chainOk p l = true ↔ List.Chain' (· ≤ ·) (p :: l.map orderIdx)
  | [], p => by simp [chainOk]
  | k :: t, p => by
    rw [chainOk, List.map_cons, List.chain'_cons]
    by_cases h : orderIdx k < p
    · rw [if_pos h]
      simp only [Bool.false_eq_true, false_iff, not_and]
      intro hle
      exact absurd hle (Nat.not_le_of_lt h)
    · rw [if_neg h, chainOk_iff_chain' t (orderIdx k)]
      have hp : p ≤ orderIdx k := Nat.le_of_not_lt h
      simp [hp]

lemma invB_iff (l : List Kind) : InvB l ↔ inOrderCheck l = true := by
  rw [InvB, inOrderCheck, chainOk_iff_chain', List.chain'_cons']
  simp

lemma chainOk_append : ∀ (l : List Kind) (p : Nat) (k : Kind),
    chainOk p (l ++ [k]) = true ↔
      (chainOk p l = true ∧ p ≤ orderIdx k ∧ ∀ x ∈ l, orderIdx x ≤ orderIdx k)
  | [], p, k => by
    simp only [List.nil_append, chainOk]
    by_cases h : orderIdx k < p
    · rw [if_pos h]
      simp only [Bool.false_eq_true, false_iff]
      rintro ⟨-, hle, -⟩
      exact absurd hle (Nat.not_le_of_lt h)
    · rw [if_neg h]
      have hp : p ≤ orderIdx k := Nat.le_of_not_lt h
      simp [hp]
  | c :: t, p, k => by
    simp only [List.cons_append, chainOk, List.append_eq]
    by_cases h : orderIdx c < p
    · simp [if_pos h]
    · simp only [if_neg h]
      rw [chainOk_append t (orderIdx c) k]
      have hp : p ≤ orderIdx c := Nat.le_of_not_lt h
      constructor
      · rintro ⟨h1, h2, h3⟩
        exact ⟨h1, Nat.le_trans hp h2, fun x hx => by
          rcases List.mem_cons.mp hx with rfl | hx
          · exact h2
          · exact h3 x hx⟩
      · rintro ⟨h1, h2, h3⟩
        exact ⟨h1, h3 c (List.mem_cons_self c t), fun x hx =>
          h3 x (List.mem_cons_of_mem _ hx)⟩

/-! Basic facts about usedKinds and append. -/

lemma usedKinds_none (s : Store) (f : Fragment) (h : f.arr = none) :
    usedKinds s f = [] := by
  simp [usedKinds, h]

lemma usedKinds_some (s : Store) (f : Fragment) (r : Nat) (h : f.arr = some r) :
    usedKinds s f = getArr s r := by
  simp [usedKinds, h]

/-- The duplicate guard path: for a singleton kind already present in the
receiver array, the constructor throws before pushing and before touching any
string, so the store comes back exactly as it went in. -/
lemma append_dup (k : Kind) (v : String) (s : Store) (f : Fragment)
    (hk : isSingleton k = true) (hmem : k ∈ usedKinds s f) :
    append k v s f = (s, Except.error SelError.duplicateSingleton) := by
  cases harr : f.arr with
  | none =>
    rw [usedKinds_none s f harr] at hmem
    exact absurd hmem (List.not_mem_nil k)
  | some r =>
    rw [usedKinds_some s f r harr] at hmem
    simp only [append, harr]
    rw [appendAt, if_pos ⟨hk, hmem⟩]

/-- A single-kind array always passes inOrderCheck (prevOrder starts at 0). -/
lemma inOrderCheck_single (k : Kind) : inOrderCheck [k] = true := by
  cases k <;> decide

/-- Full characterisation of a successful append with a real receiver array:
the second if branch of appendAt was taken. -/
lemma append_ok_some (k : Kind) (v : String) (s : Store) (f : Fragment)
    (s' : Store) (g : Fragment) (r : Nat) (harr : f.arr = some r)
    (h : append k v s f = (s', Except.ok g)) :
    ¬(isSingleton k = true ∧ k ∈ getArr s r) ∧
      inOrderCheck (getArr s r ++ [k]) = true ∧
      s' = setArr s r (getArr s r ++ [k]) ∧
      g = { str := some (stringify f ++ punctuate k v), arr := some r } := by
  simp only [append, harr] at h
  rw [appendAt] at h
  split_ifs at h with h1 h2
  · injection h with hs hres
    exact Except.noConfusion hres
  · injection h with hs hg
    injection hg with hg
    exact ⟨h1, h2, hs.symm, hg.symm⟩
  · injection h with hs hres
    exact Except.noConfusion hres

/-- Full characterisation of a successful append on a receiver without an own
array (the facade or a combine result): a fresh array is allocated at the end
of the store and receives the single pushed kind. -/
lemma append_ok_noarr (k : Kind) (v : String) (s : Store) (f : Fragment)
    (s' : Store) (g : Fragment) (harr : f.arr = none)
    (h : append k v s f = (s', Except.ok g)) :
    s' = setArr (s ++ [[]]) s.length [k] ∧
      g = { str := some (stringify f ++ punctuate k v), arr := some s.length } := by
  have ha : getArr (s ++ [[]]) s.length = [] := getD_append_self s []
  simp only [append, harr] at h
  rw [appendAt, ha] at h
  rw [if_neg (by simp), List.nil_append, if_pos (inOrderCheck_single k)] at h
  injection h with hs hg
  injection hg with hg
  exact ⟨hs.symm, hg.symm⟩

/-- Any successful append returns the new object with the punctuated value
concatenated onto the stringify of the receiver. -/
lemma append_ok_str (k : Kind) (v : String) (s : Store) (f : Fragment)
    (s' : Store) (g : Fragment) (h : append k v s f = (s', Except.ok g)) :
    stringify g = stringify f ++ punctuate k v := by
  cases harr : f.arr with
  | none =>
    obtain ⟨-, hg⟩ := append_ok_noarr k v s f s' g harr h
    rw [hg, stringify]
    rfl
  | some r =>
    obtain ⟨-, -, -, hg⟩ := append_ok_some k v s f s' g r harr h
    rw [hg, stringify]
    rfl

/-- A successful append pushed the kind onto the shared array: the new object
sees the receiver kinds plus the new kind, and so does the receiver itself when
it had an own array (the array object is shared, not copied). -/
lemma append_ok_usedKinds (k : Kind) (v : String) (s : Store) (f : Fragment)
    (s' : Store) (g : Fragment) (hwf : WFb s f = true)
    (h : append k v s f = (s', Except.ok g)) :
    usedKinds s' g = usedKinds s f ++ [k] := by
  cases harr : f.arr with
  | none =>
    obtain ⟨hs, hg⟩ := append_ok_noarr k v s f s' g harr h
    subst hs hg
    rw [usedKinds_none s f harr]
    show getArr (setArr (s ++ [[]]) s.length [k]) s.length = [] ++ [k]
    rw [List.nil_append, setArr, getArr]
    exact getD_set_self (s ++ [[]]) s.length [k] (by simp)
  | some r =>
    obtain ⟨-, -, hs, hg⟩ := append_ok_some k v s f s' g r harr h
    subst hs hg
    rw [usedKinds_some s f r harr]
    show getArr (setArr s r (getArr s r ++ [k])) r = getArr s r ++ [k]
    rw [setArr, getArr]
    have hr : r < s.length := by
      rw [WFb, harr] at hwf
      exact of_decide_eq_true hwf
    exact getD_set_self s r (getArr s r ++ [k]) hr

/-- The duplicate error happens exactly when the appended kind is a singleton
kind already present in the receiver array. -/
lemma append_dup_iff (k : Kind) (v : String) (s : Store) (f : Fragment) :
    (append k v s f).2 = Except.error SelError.duplicateSingleton ↔
      (isSingleton k = true ∧ k ∈ usedKinds s f) := by
  constructor
  · intro h
    by_contra hnot
    cases harr : f.arr with
    | none =>
      have ha : getArr (s ++ [[]]) s.length = [] := getD_append_self s []
      simp only [append, harr] at h
      rw [appendAt, ha, if_neg (by simp), List.nil_append,
        if_pos (inOrderCheck_single k)] at h
      exact Except.noConfusion h
    | some r =>
      rw [usedKinds_some s f r harr] at hnot
      simp only [append, harr] at h
      rw [appendAt, if_neg hnot] at h
      by_cases hio : inOrderCheck (getArr s r ++ [k]) = true
      · rw [if_pos hio] at h
        exact Except.noConfusion h
      · rw [if_neg hio] at h
        injection h with h
        exact SelError.noConfusion h
  · rintro ⟨hk, hmem⟩
    rw [append_dup k v s f hk hmem]

/-- The out-of-order error happens exactly when the duplicate guard passes and
the mutated array fails inOrderCheck. -/
lemma append_ooo_iff (k : Kind) (v : String) (s : Store) (f : Fragment) :
    (append k v s f).2 = Except.error SelError.outOfOrder ↔
      (¬(isSingleton k = true ∧ k ∈ usedKinds s f) ∧
        inOrderCheck (usedKinds s f ++ [k]) = false) := by
  cases harr : f.arr with
  | none =>
    have ha : getArr (s ++ [[]]) s.length = [] := getD_append_self s []
    rw [usedKinds_none s f harr]
    simp only [append, harr]
    rw [appendAt, ha, if_neg (by simp), List.nil_append,
      if_pos (inOrderCheck_single k)]
    constructor
    · intro h
      exact Except.noConfusion h
    · rintro ⟨-, hio⟩
      rw [inOrderCheck_single k] at hio
      exact Bool.noConfusion hio
  | some r =>
    rw [usedKinds_some s f r harr]
    simp only [append, harr]
    rw [appendAt]
    by_cases hdup : isSingleton k = true ∧ k ∈ getArr s r
    · rw [if_pos hdup]
      constructor
      · intro h
        injection h with h
        exact SelError.noConfusion h
      · rintro ⟨hnot, -⟩
        exact absurd hdup hnot
    · rw [if_neg hdup]
      by_cases hio : inOrderCheck (getArr s r ++ [k]) = true
      · rw [if_pos hio]
        constructor
        · intro h
          exact Except.noConfusion h
        · rintro ⟨-, hfalse⟩
          rw [hio] at hfalse
          exact Bool.noConfusion hfalse
      · rw [if_neg hio]
        exact ⟨fun _ => ⟨hdup, Bool.of_not_eq_true hio⟩, fun _ => rfl⟩

/-- What each failed append leaves behind in the store: a duplicate throw
leaves the store untouched, an out-of-order throw has already pushed the kind
onto the receiver array. -/
lemma append_err_store (k : Kind) (v : String) (s : Store) (f : Fragment)
    (s' : Store) (e : SelError) (hwf : WFb s f = true)
    (h : append k v s f = (s', Except.error e)) :
    (e = SelError.duplicateSingleton → s' = s) ∧
    (e = SelError.outOfOrder → usedKinds s' f = usedKinds s f ++ [k]) := by
  cases harr : f.arr with
  | none =>
    have ha : getArr (s ++ [[]]) s.length = [] := getD_append_self s []
    simp only [append, harr] at h
    rw [appendAt, ha, if_neg (by simp), List.nil_append,
      if_pos (inOrderCheck_single k)] at h
    injection h with hs hres
    exact Except.noConfusion hres
  | some r =>
    have hr : r < s.length := by
      rw [WFb, harr] at hwf
      exact of_decide_eq_true hwf
    simp only [append, harr] at h
    rw [appendAt] at h
    split_ifs at h with h1 h2
    · injection h with hs hres
      injection hres with he
      subst he hs
      exact ⟨fun _ => rfl, fun hoo => SelError.noConfusion hoo⟩
    · injection h with hs hres
      exact Except.noConfusion hres
    · injection h with hs hres
      injection hres with he
      subst he hs
      refine ⟨fun hdup => SelError.noConfusion hdup, fun _ => ?_⟩
      rw [usedKinds_some _ f r harr, usedKinds_some s f r harr, getArr, setArr]
      exact getD_set_self s r (getArr s r ++ [k]) hr

/-- Appending a kind that may not duplicate preserves Invariant A. -/
lemma invA_append (u : List Kind) (k : Kind) (hA : InvA u)
    (hk : isSingleton k = true → k ∉ u) : InvA (u ++ [k]) := by
  obtain ⟨h1, h2, h3⟩ := hA
  refine ⟨?_, ?_, ?_⟩ <;> rw [List.count_append]
  · by_cases hke : k = Kind.element
    · subst hke
      have := List.count_eq_zero.mpr (hk (by decide))
      simp [this]
    · have : List.count Kind.element [k] = 0 := by
        rw [List.count_singleton']
        simp [hke]
      omega
  · by_cases hke : k = Kind.id
    · subst hke
      have := List.count_eq_zero.mpr (hk (by decide))
      simp [this]
    · have : List.count Kind.id [k] = 0 := by
        rw [List.count_singleton']
        simp [hke]
      omega
  · by_cases hke : k = Kind.pseudoElement
    · subst hke
      have := List.count_eq_zero.mpr (hk (by decide))
      simp [this]
    · have : List.count Kind.pseudoElement [k] = 0 := by
        rw [List.count_singleton']
        simp [hke]
      omega

/-! ## Claim theorems -/

/-- Claim C1, counterexample.  The claim says a successful append leaves the
input fragment observably unchanged, its usedKinds included, and shares no
mutable state with it.  On the concrete fragment div (array reference 0,
store [[element]]), appending class "a" succeeds, yet afterwards the input
fragment's own usedKinds has grown to [element, class]: the constructor
adopted the receiver array by reference and pushed onto it. -/
theorem copy_on_append_counterexample :
    (append Kind.class_ "a" [[Kind.element]] ⟨some "div", some 0⟩).2.isOk = true ∧
    usedKinds (append Kind.class_ "a" [[Kind.element]] ⟨some "div", some 0⟩).1
        ⟨some "div", some 0⟩ ≠
      usedKinds [[Kind.element]] ⟨some "div", some 0⟩ := by
  decide

/-- Claim C1, amended.  A successful append leaves the input fragment's text
unchanged (text is per object and never rewritten) and returns a new fragment
whose usedKinds is the predecessor's usedKinds plus the new kind; but the new
fragment shares the predecessor's array object rather than copying it, so when
the predecessor has an own array its usedKinds also grows by the appended
kind; only when the receiver had no array (the facade or a combine result) is
a fresh array allocated and the receiver left fully unchanged. -/
theorem append_shares_mutable_array (k : Kind) (v : String) (s : Store)
    (f : Fragment) (s' : Store) (g : Fragment) (hwf : WFb s f = true)
    (h : append k v s f = (s', Except.ok g)) :
    stringify g = stringify f ++ punctuate k v ∧
    usedKinds s' g = usedKinds s f ++ [k] ∧
    (f.arr.isSome = true → g.arr = f.arr ∧
      usedKinds s' f = usedKinds s f ++ [k]) ∧
    (f.arr = none → usedKinds s' f = usedKinds s f) := by
  refine ⟨append_ok_str _ _ _ _ _ _ h, append_ok_usedKinds _ _ _ _ _ _ hwf h, ?_, ?_⟩
  · intro hsome
    obtain ⟨r, harr⟩ := Option.isSome_iff_exists.mp hsome
    obtain ⟨-, -, hs, hg⟩ := append_ok_some k v s f s' g r harr h
    have hga : g.arr = some r := by rw [hg]
    refine ⟨by rw [hga, harr], ?_⟩
    have hgk : usedKinds s' g = usedKinds s f ++ [k] :=
      append_ok_usedKinds _ _ _ _ _ _ hwf h
    rw [usedKinds_some s' f r harr, ← hgk, usedKinds_some s' g r hga]
  · intro harr
    rw [usedKinds_none s' f harr, usedKinds_none s f harr]

/-- Claim C1, witness for the amended theorem: after the successful append of
class "a" to the div fragment, the input fragment's own usedKinds has the
appended kind as well, through the shared array. -/
theorem append_shares_mutable_array_witness :
    usedKinds [[Kind.element, Kind.class_]] (⟨some "div", some 0⟩ : Fragment) =
      usedKinds [[Kind.element]] ⟨some "div", some 0⟩ ++ [Kind.class_] :=
  ((append_shares_mutable_array Kind.class_ "a" [[Kind.element]]
      ⟨some "div", some 0⟩ [[Kind.element, Kind.class_]] ⟨some "div.a", some 0⟩
      (by decide) (by decide)).2.2.1 (by decide)).2

/-- Claim C2: if the input fragment satisfies Invariant A (element, id and
pseudo-element at most once) and Invariant B (first-occurrence deduplication
has non-decreasing canonical order indices) and the append returns normally,
then the returned fragment satisfies both invariants as well. -/
theorem append_preserves_invariants (k : Kind) (v : String) (s : Store)
    (f : Fragment) (s' : Store) (g : Fragment) (hwf : WFb s f = true)
    (hA : InvA (usedKinds s f)) (hB : InvB (usedKinds s f))
    (h : append k v s f = (s', Except.ok g)) :
    InvA (usedKinds s' g) ∧ InvB (usedKinds s' g) := by
  have hused : usedKinds s' g = usedKinds s f ++ [k] :=
    append_ok_usedKinds _ _ _ _ _ _ hwf h
  rw [hused]
  constructor
  · apply invA_append _ _ hA
    intro hk hmem
    rw [append_dup k v s f hk hmem] at h
    injection h with hs hres
    exact Except.noConfusion hres
  · rw [invB_iff]
    cases harr : f.arr with
    | none =>
      rw [usedKinds_none s f harr, List.nil_append]
      exact inOrderCheck_single k
    | some r =>
      obtain ⟨-, hio, -, -⟩ := append_ok_some k v s f s' g r harr h
      rw [usedKinds_some s f r harr]
      exact hio

/-- Claim C2, witness: appending class to the valid fragment div preserves
both invariants on the result. -/
theorem append_preserves_invariants_witness :
    InvA (usedKinds [[Kind.element, Kind.class_]] (⟨some "div.a", some 0⟩ : Fragment)) ∧
    InvB (usedKinds [[Kind.element, Kind.class_]] ⟨some "div.a", some 0⟩) :=
  append_preserves_invariants Kind.class_ "a" [[Kind.element]]
    ⟨some "div", some 0⟩ [[Kind.element, Kind.class_]] ⟨some "div.a", some 0⟩
    (by decide) (by decide) (by decide) (by decide)

/-- Claim C3: for the singleton kinds (element, id, pseudo-element) the
duplicate error is raised exactly when the same kind is already present in the
receiver's usedKinds; on that path the store is returned untouched (the guard
runs before the push and before any text concatenation); and the fixed error
message contains the offending kind's name and states the at-most-once rule
for element, id and pseudo-element. -/
theorem dup_error_iff (k : Kind) (v : String) (s : Store) (f : Fragment)
    (hk : isSingleton k = true) :
    ((append k v s f).2 = Except.error SelError.duplicateSingleton ↔
      k ∈ usedKinds s f) ∧
    (k ∈ usedKinds s f →
      append k v s f = (s, Except.error SelError.duplicateSingleton)) ∧
    List.IsInfix (kindName k).toList
      (errorMessage SelError.duplicateSingleton).toList ∧
    errorMessage SelError.duplicateSingleton =
      "Element, id and pseudo-element should not occur more then one time inside the selector" := by
  refine ⟨?_, fun hmem => append_dup k v s f hk hmem, ?_, rfl⟩
  · rw [append_dup_iff]
    exact ⟨fun h => h.2, fun h => ⟨hk, h⟩⟩
  · revert hk
    cases k <;> intro hk
    case element => decide
    case id => decide
    case pseudoElement => decide
    all_goals exact Bool.noConfusion hk

/-- Claim C3, witness: calling id on a fragment whose usedKinds already holds
id fails with the duplicate error and returns the store unchanged. -/
theorem dup_error_iff_witness :
    append Kind.id "m" [[Kind.id]] ⟨some "#a", some 0⟩ =
      ([[Kind.id]], Except.error SelError.duplicateSingleton) :=
  (dup_error_iff Kind.id "m" [[Kind.id]] ⟨some "#a", some 0⟩ (by decide)).2.1
    (by decide)

/-- Claim C4, counterexample.  The claim says the out-of-order error is raised
exactly when some distinct kind of strictly greater canonical index is already
present.  The fragment with usedKinds [class, pseudo-class] satisfies both
invariants and contains pseudo-class (index 4, strictly above class = 2 and
distinct from it), so the claim demands an out-of-order error on a further
class append; but the code deduplicates before checking (class keeps its first
occurrence position), so the append succeeds. -/
theorem ooo_error_exact_counterexample :
    InvA (usedKinds [[Kind.class_, Kind.pseudoClass]] ⟨some ".a:x", some 0⟩) ∧
    InvB (usedKinds [[Kind.class_, Kind.pseudoClass]] ⟨some ".a:x", some 0⟩) ∧
    Kind.pseudoClass ∈
      usedKinds [[Kind.class_, Kind.pseudoClass]] ⟨some ".a:x", some 0⟩ ∧
    Kind.pseudoClass ≠ Kind.class_ ∧
    orderIdx Kind.class_ < orderIdx Kind.pseudoClass ∧
    (append Kind.class_ "b" [[Kind.class_, Kind.pseudoClass]]
        ⟨some ".a:x", some 0⟩).2 ≠ Except.error SelError.outOfOrder := by
  decide

/-- Claim C4, amended.  On a fragment satisfying Invariants A and B, an append
of kind k raises the out-of-order error exactly when k is NOT already present
in usedKinds and some kind already present has a strictly greater canonical
index (when k is already present the call never reaches the order check with a
changed deduplicated sequence: a singleton duplicate raises the duplicate
error instead, a non-singleton repeat succeeds); the error message states the
required canonical order. -/
theorem ooo_error_iff_amended (k : Kind) (v : String) (s : Store) (f : Fragment)
    (hA : InvA (usedKinds s f)) (hB : InvB (usedKinds s f)) :
    ((append k v s f).2 = Except.error SelError.outOfOrder ↔
      (k ∉ usedKinds s f ∧ ∃ j ∈ usedKinds s f, orderIdx k < orderIdx j)) ∧
    errorMessage SelError.outOfOrder =
      "Selector parts should be arranged in the following order: element, id, class, attribute, pseudo-class, pseudo-element" := by
  refine ⟨?_, rfl⟩
  rw [append_ooo_iff]
  rw [invB_iff, inOrderCheck] at hB
  constructor
  · rintro ⟨hnot, hio⟩
    by_cases hmem : k ∈ usedKinds s f
    · exfalso
      rw [inOrderCheck, dedupFirst_append, if_pos hmem, hB] at hio
      exact Bool.noConfusion hio
    · refine ⟨hmem, ?_⟩
      rw [inOrderCheck, dedupFirst_append, if_neg hmem] at hio
      by_contra hno
      push_neg at hno
      have htrue : chainOk 0 (dedupFirst (usedKinds s f) ++ [k]) = true := by
        rw [chainOk_append]
        exact ⟨hB, Nat.zero_le _,
          fun x hx => hno x ((mem_dedupFirst x (usedKinds s f)).mp hx)⟩
      rw [htrue] at hio
      exact Bool.noConfusion hio
  · rintro ⟨hmem, j, hj, hlt⟩
    refine ⟨fun hc => hmem hc.2, ?_⟩
    rw [inOrderCheck, dedupFirst_append, if_neg hmem]
    by_contra hne
    rw [Bool.not_eq_false, chainOk_append] at hne
    obtain ⟨-, -, hall⟩ := hne
    have := hall j ((mem_dedupFirst j (usedKinds s f)).mpr hj)
    omega

/-- Claim C4, witness for the amended theorem: appending element to a fragment
whose usedKinds is [class] (class has index 2 > 0 and element is absent)
raises the out-of-order error. -/
theorem ooo_error_iff_amended_witness :
    (append Kind.element "div" [[Kind.class_]] ⟨some ".a", some 0⟩).2 =
      Except.error SelError.outOfOrder :=
  ((ooo_error_iff_amended Kind.element "div" [[Kind.class_]] ⟨some ".a", some 0⟩
      (by decide) (by decide)).1).mpr
    ⟨by decide, Kind.class_, by decide, by decide⟩

/-- Claim C5, counterexample.  The claim says every failed append leaves the
input fragment's usedKinds exactly as before.  Appending element to the
fragment with usedKinds [class] fails with the out-of-order error, yet the
constructor has already pushed element onto the shared array before
inOrderCheck threw, so the input fragment's usedKinds afterwards is
[class, element]. -/
theorem failure_atomicity_counterexample :
    (append Kind.element "div" [[Kind.class_]] ⟨some ".a", some 0⟩).2 =
      Except.error SelError.outOfOrder ∧
    usedKinds (append Kind.element "div" [[Kind.class_]] ⟨some ".a", some 0⟩).1
        ⟨some ".a", some 0⟩ ≠
      usedKinds [[Kind.class_]] ⟨some ".a", some 0⟩ := by
  decide

/-- Claim C5, amended.  No failed append ever returns a fragment, and the
input fragment's text is never touched; a duplicate-singleton failure returns
the store fully unchanged, but an out-of-order failure has already pushed the
offending kind onto the input fragment's (shared) usedKinds array. -/
theorem failure_atomicity_amended (k : Kind) (v : String) (s : Store)
    (f : Fragment) (s' : Store) (e : SelError) (hwf : WFb s f = true)
    (h : append k v s f = (s', Except.error e)) :
    (e = SelError.duplicateSingleton →
      s' = s ∧ usedKinds s' f = usedKinds s f) ∧
    (e = SelError.outOfOrder →
      usedKinds s' f = usedKinds s f ++ [k]) := by
  obtain ⟨hd, ho⟩ := append_err_store k v s f s' e hwf h
  exact ⟨fun he => ⟨hd he, by rw [hd he]⟩, ho⟩

/-- Claim C5, witness for the amended theorem: the failed out-of-order append
of element onto the class fragment left the pushed kind behind in the input
fragment's usedKinds. -/
theorem failure_atomicity_amended_witness :
    usedKinds [[Kind.class_, Kind.element]] (⟨some ".a", some 0⟩ : Fragment) =
      usedKinds [[Kind.class_]] ⟨some ".a", some 0⟩ ++ [Kind.element] :=
  (failure_atomicity_amended Kind.element "div" [[Kind.class_]]
      ⟨some ".a", some 0⟩ [[Kind.class_, Kind.element]] SelError.outOfOrder
      (by decide) (by decide)).2 rfl

/-- Claim C6: combine never fails (it is a total function), applies no
validation, returns the store unchanged, produces the text
stringify(left) + " " + combinator + " " + stringify(right), and the result
carries no array, so its usedKinds is empty — a fresh validation state
whatever the inputs were. -/
theorem combine_spec (s : Store) (f1 : Fragment) (c : String) (f2 : Fragment) :
    combine s f1 c f2 =
      (s, { str := some (stringify f1 ++ " " ++ c ++ " " ++ stringify f2),
            arr := none }) ∧
    stringify (combine s f1 c f2).2 =
      stringify f1 ++ " " ++ c ++ " " ++ stringify f2 ∧
    usedKinds (combine s f1 c f2).1 (combine s f1 c f2).2 = [] :=
  ⟨rfl, rfl, rfl⟩

/-- Claim C7: branching two class appends off the same predecessor, the texts
of the two derived fragments are the predecessor's text followed by ".a" and
".b" respectively — the second call runs on the store already mutated by the
first and still starts from the predecessor's unchanged text, so neither
branch observes the other's text. -/
theorem branch_independence (s : Store) (f : Fragment) (s1 s2 : Store)
    (g1 g2 : Fragment)
    (h1 : append Kind.class_ "a" s f = (s1, Except.ok g1))
    (h2 : append Kind.class_ "b" s1 f = (s2, Except.ok g2)) :
    stringify g1 = stringify f ++ ".a" ∧ stringify g2 = stringify f ++ ".b" := by
  have e1 := append_ok_str _ _ _ _ _ _ h1
  have e2 := append_ok_str _ _ _ _ _ _ h2
  have ha : punctuate Kind.class_ "a" = ".a" := by decide
  have hb : punctuate Kind.class_ "b" = ".b" := by decide
  rw [ha] at e1
  rw [hb] at e2
  exact ⟨e1, e2⟩

/-- Claim C7, witness: branching class "a" and class "b" off the div fragment
yields div.a and div.b. -/
theorem branch_independence_witness :
    stringify (⟨some "div.a", some 0⟩ : Fragment) =
      stringify (⟨some "div", some 0⟩ : Fragment) ++ ".a" ∧
    stringify (⟨some "div.b", some 0⟩ : Fragment) =
      stringify (⟨some "div", some 0⟩ : Fragment) ++ ".b" :=
  branch_independence [[Kind.element]] ⟨some "div", some 0⟩
    [[Kind.element, Kind.class_]] [[Kind.element, Kind.class_, Kind.class_]]
    ⟨some "div.a", some 0⟩ ⟨some "div.b", some 0⟩ (by decide) (by decide)

/-- Claim C8: each facade entry point appends its fixed punctuation around the
raw value, which is spliced in verbatim with no precondition on its content;
and the chain id("main").class("container").class("editable") started from the
facade stringifies to "#main.container.editable". -/
theorem facade_punctuation (v : String) (s : Store) (f : Fragment) (s' : Store)
    (g : Fragment) :
    (append Kind.element v s f = (s', Except.ok g) →
      stringify g = stringify f ++ v) ∧
    (append Kind.id v s f = (s', Except.ok g) →
      stringify g = stringify f ++ ("#" ++ v)) ∧
    (append Kind.class_ v s f = (s', Except.ok g) →
      stringify g = stringify f ++ ("." ++ v)) ∧
    (append Kind.attr v s f = (s', Except.ok g) →
      stringify g = stringify f ++ ("[" ++ v ++ "]")) ∧
    (append Kind.pseudoClass v s f = (s', Except.ok g) →
      stringify g = stringify f ++ (":" ++ v)) ∧
    (append Kind.pseudoElement v s f = (s', Except.ok g) →
      stringify g = stringify f ++ ("::" ++ v)) ∧
    (runChain [] builderFragment
        [(Kind.id, "main"), (Kind.class_, "container"),
          (Kind.class_, "editable")]).2 =
      Except.ok { str := some "#main.container.editable", arr := some 0 } := by
  refine ⟨fun h => append_ok_str _ _ _ _ _ _ h, fun h => append_ok_str _ _ _ _ _ _ h,
    fun h => append_ok_str _ _ _ _ _ _ h, fun h => append_ok_str _ _ _ _ _ _ h,
    fun h => append_ok_str _ _ _ _ _ _ h, fun h => append_ok_str _ _ _ _ _ _ h,
    by decide⟩

/-- Claim C8, witness: the element entry point splices the value verbatim onto
the facade's empty text. -/
theorem facade_punctuation_witness :
    stringify (⟨some "x", some 0⟩ : Fragment) = stringify builderFragment ++ "x" :=
  (facade_punctuation "x" [] builderFragment [[Kind.element]]
      ⟨some "x", some 0⟩).1 (by decide)

/-- Claim C9: stringify returns the fragment's accumulated text, the empty
string for the untouched initial fragment, and, being a pure total function of
the fragment (it reads this.str and writes nothing), it always succeeds and
returns the identical string on every repeated call. -/
theorem stringify_spec (f : Fragment) (t : String) (h : f.str = some t) :
    stringify f = t ∧ stringify builderFragment = "" ∧
      stringify f = stringify f := by
  refine ⟨?_, rfl, rfl⟩
  rw [stringify, h]
  rfl

/-- Claim C9, witness: stringify of the div fragment is div. -/
theorem stringify_spec_witness :
    stringify (⟨some "div", some 0⟩ : Fragment) = "div" ∧
    stringify builderFragment = "" ∧
    stringify (⟨some "div", some 0⟩ : Fragment) =
      stringify (⟨some "div", some 0⟩ : Fragment) :=
  stringify_spec ⟨some "div", some 0⟩ "div" rfl

/-- Claim C10: when element, id or pseudo-element is called on a fragment
whose usedKinds already contains that kind, the duplicate guard throws before
the push and before any text concatenation: the returned store is exactly the
input store, so the input fragment's usedKinds and text are completely
unchanged even though its array object may be shared with derived
fragments. -/
theorem dup_guard_before_push (k : Kind) (v : String) (s : Store) (f : Fragment)
    (hk : isSingleton k = true) (hmem : k ∈ usedKinds s f) :
    append k v s f = (s, Except.error SelError.duplicateSingleton) :=
  append_dup k v s f hk hmem

/-- Claim C10, witness: re-appending element to a fragment already containing
element throws the duplicate error and hands back the untouched store. -/
theorem dup_guard_before_push_witness :
    append Kind.element "x" [[Kind.element]] ⟨some "div", some 0⟩ =
      ([[Kind.element]], Except.error SelError.duplicateSingleton) :=
  dup_guard_before_push Kind.element "x" [[Kind.element]] ⟨some "div", some 0⟩
    (by decide) (by decide)


end CssBuilder

